import Mathlib

/-!
# Verification of the ai-resume-ranker pipeline and storage layer

A shallow embedding, in Lean 4, of the core pipeline of the
`ai-resume-ranker` repository:

* `services/assistants.py` — text aggregation (`get_text_for_pages`) and the
  two-stage orchestration (`process_single_resume_group`);
* `services/storage_service.py` — the SQLite-backed job/candidate store
  (`init_db` migration, `create_job`, `get_job_id_by_name`,
  `delete_job_and_candidates`, `store_candidate_data`,
  `load_candidates_for_job`).

Python strings are embedded as `List Char`; JSON values as the inductive
`JVal` (numbers modelled as integers); the external OpenAI calls and the
Python `json.loads` library routine are oracle parameters; the database is
an explicit record of table contents.  Fallible Python code is embedded
with `Option`/`Except`.
-/

namespace ResumeRanker

/-- Python strings are modelled as lists of characters. -/
abbrev Str := List Char

/-- Coercion from Lean string literals to the model's strings. -/
def strL (s : String) : Str := s.data

/-- Python `str.strip` whitespace set (space, tab, newline, CR, VT, FF). -/
def pyWs (c : Char) : Bool :=
  c == ' ' || c == '\t' || c == '\n' || c == '\r' || c == '\x0b' || c == '\x0c'

/-- Python `s.strip()`: drop whitespace from both ends. -/
def trimL (l : Str) : Str :=
  ((l.dropWhile pyWs).reverse.dropWhile pyWs).reverse

/-- Python `s.startswith(p)`. -/
def leadsWith : Str → Str → Bool
  | [], _ => true
  | _ :: _, [] => false
  | a :: as, b :: bs => a == b && leadsWith as bs

/-- Python `s.endswith(p)`. -/
def trailsWith (p l : Str) : Bool := leadsWith p.reverse l.reverse

/-- Python `p in s` (substring containment). -/
def hasSub (p : Str) : Str → Bool
  | [] => leadsWith p []
  | c :: rest => leadsWith p (c :: rest) || hasSub p rest

/-- Python `s[:-n]` for `n > 0` (drop the last `n` characters). -/
def dropRightL (n : Nat) (l : Str) : Str := l.take (l.length - n)

/-- Truthiness of a Python string: nonempty. -/
def strTruthy (s : Str) : Bool := !s.isEmpty

/-- Decimal digits, most significant first, with explicit fuel (any fuel
above the number of digits suffices; `natDigits` passes `n + 1`). -/
def natDigitsAux : Nat → Nat → List Char
  | 0, _ => []
  | fuel + 1, n =>
    if n < 10 then [Nat.digitChar n]
    else natDigitsAux fuel (n / 10) ++ [Nat.digitChar (n % 10)]

/-- Decimal digits of a natural number, most significant first
(the rendering used by Python's number formatting). -/
def natDigits (n : Nat) : List Char := natDigitsAux (n + 1) n

/-- Decimal rendering of an integer (Python `str(i)` for ints). -/
def intToStr (i : Int) : Str :=
  if i < 0 then '-' :: natDigits i.natAbs else natDigits i.natAbs

/-- JSON values, as produced by `json.loads` / consumed by `json.dumps`.
Numbers are modelled as integers. -/
inductive JVal where
  | null : JVal
  | bool : Bool → JVal
  | num : Int → JVal
  | str : Str → JVal
  | arr : List JVal → JVal
  | obj : List (Str × JVal) → JVal

/-- Python truthiness of a decoded JSON value (`None`, `False`, `0`, `""`,
`[]`, `{}` are falsy). -/
def pyTruthy : JVal → Bool
  | .null => false
  | .bool b => b
  | .num i => i != 0
  | .str s => !s.isEmpty
  | .arr xs => !xs.isEmpty
  | .obj kvs => !kvs.isEmpty

/-- Python `d.get(k)` on a decoded JSON object (`None` when absent). -/
def jGet (v : JVal) (k : Str) : Option JVal :=
  match v with
  | .obj kvs => (kvs.find? (fun kv => kv.1 == k)).map (·.2)
  | _ => none

/-- Python `d.get(k, default)`. -/
def jGetD (v : JVal) (k : Str) (d : JVal) : JVal := (jGet v k).getD d

/-- Is the value a JSON object (a Python `dict`)?  Attribute access such as
`d.get` raises on anything else. -/
def isObj : JVal → Bool
  | .obj _ => true
  | _ => false

/-- Escaping of one character inside a JSON string literal (the quote,
backslash and newline cases of `json.dumps` with `ensure_ascii=False`). -/
def escChar (c : Char) : Str :=
  if c = '"' then ['\\', '"']
  else if c = '\\' then ['\\', '\\']
  else if c = '\n' then ['\\', 'n']
  else [c]

/-- Escaping of a whole JSON string body. -/
def escape (s : Str) : Str := s.flatMap escChar

/-- Comma-join with the `", "` separator `json.dumps` uses by default. -/
def commaJoin : List Str → Str
  | [] => []
  | [x] => x
  | x :: y :: rest => x ++ ',' :: ' ' :: commaJoin (y :: rest)

mutual

/-- `json.dumps(v, ensure_ascii=False)`: the serialization the storage
layer writes for nested JSON fields. -/
def dumps : JVal → Str
  | .null => strL "null"
  | .bool true => strL "true"
  | .bool false => strL "false"
  | .num i => intToStr i
  | .str s => '"' :: (escape s ++ ['"'])
  | .arr xs => '[' :: (commaJoin (dumpsList xs) ++ [']'])
  | .obj kvs => '{' :: (commaJoin (dumpsObj kvs) ++ ['}'])

/-- Serializations of the elements of a JSON array. -/
def dumpsList : List JVal → List Str
  | [] => []
  | x :: xs => dumps x :: dumpsList xs

/-- Serializations of the `"key": value` entries of a JSON object. -/
def dumpsObj : List (Str × JVal) → List Str
  | [] => []
  | (k, v) :: kvs => ('"' :: (escape k ++ '"' :: ':' :: ' ' :: dumps v)) :: dumpsObj kvs

end

/-! ## Lenient JSON parsing (assistants.py lines 152–155 and 188–191)

Both AI stages parse the assistant's reply the same way:
`json_str = raw.strip()`; strip a leading ` ```json ` fence and a trailing
` ``` ` fence if present; then `json.loads(json_str.strip())`.  The
`json.loads` library call is an oracle parameter `loads`. -/

/-- The fence-stripping normalisation both stages apply before `json.loads`. -/
def stripFences (raw : Str) : Str :=
  let j₁ := trimL raw
  let j₂ := if leadsWith (strL "```json") j₁ then j₁.drop 7 else j₁
  let j₃ := if trailsWith (strL "```") j₂ then dropRightL 3 j₂ else j₂
  trimL j₃

/-- The shared tolerant parse: fence-strip, then `json.loads` (oracle);
a parse exception is an absent result. -/
def parseLenient (loads : Str → Option JVal) (raw : Str) : Option JVal :=
  loads (stripFences raw)

/-- A reply wrapped in code-fence markers, as the AI service often returns. -/
def fencedWrap (s : Str) : Str := strL "```json" ++ '\n' :: (s ++ '\n' :: strL "```")

/-! ## Text Aggregator (assistants.py, `get_text_for_pages`) -/

/-- The block appended for one requested page number: the delimited content
when the 1-based page is in range and nonempty, a warning marker when its
content is empty/`None`, an error marker when the page is out of range.
OCR entries are `Option Str` because the code guards `page_content is not
None`. -/
def pageBlock (ocrMarkdowns : List (Option Str)) (pageNum : Int) : Str :=
  let pageIndex : Int := pageNum - 1
  if h : 0 ≤ pageIndex ∧ pageIndex < (ocrMarkdowns.length : Int) then
    match ocrMarkdowns.get ⟨pageIndex.toNat, by omega⟩ with
    | some content =>
      if content.any (fun c => !pyWs c) then
        strL "--- Start Page " ++ intToStr pageNum ++ strL " ---" ++ '\n' ::
          (content ++ '\n' :: (strL "--- End Page " ++ intToStr pageNum ++ strL " ---"))
      else
        strL "--- Warning: Page " ++ intToStr pageNum ++ strL " content is empty ---"
    | none =>
        strL "--- Warning: Page " ++ intToStr pageNum ++ strL " content is empty ---"
  else
    strL "--- Error: Page " ++ intToStr pageNum ++ strL " not found ---"

/-- `"\n\n".join(blocks)`. -/
def joinBlocks : List Str → Str
  | [] => []
  | [b] => b
  | b :: b' :: rest => b ++ '\n' :: '\n' :: joinBlocks (b' :: rest)

/-- `get_text_for_pages(ocr_markdowns, page_numbers)`: empty OCR input
returns the global error string; otherwise one block is appended per
requested page (the Python loop) and the blocks are joined with blank
lines. -/
def get_text_for_pages (ocrMarkdowns : List (Option Str)) (pageNumbers : List Int) : Str :=
  if ocrMarkdowns.length = 0 then strL "--- Error: OCR data is empty ---"
  else joinBlocks (pageNumbers.foldr (fun n acc => pageBlock ocrMarkdowns n :: acc) [])

/-! ## Resume Batch Orchestrator (assistants.py, `process_single_resume_group`)

The two `call_openai_assistant` invocations are oracle parameters
`extractResp` and `scoreResp` (`None` models every absent-response path of
that function: missing client/ID/prompt, timeout, non-completed terminal
status, missing assistant message, transport exception).  `json.loads` is
the oracle `loads`.  The scorer prompt embeds the wall-clock date and the
extracted JSON, but only feeds the oracle, so its construction is not
observable in the return value and is elided. -/

/-- The tuple `process_single_resume_group` returns. -/
structure ProcResult where
  extracted : Option JVal
  scored : Option JVal
  rawExtract : Option Str
  rawScore : Option Str

/-- Python exceptions that can escape `process_single_resume_group`. -/
inductive PyExn where
  | indexError : PyExn
deriving Repr, DecidableEq

/-- The placeholder scored record synthesized when scoring fails. -/
def scoringFailedPlaceholder : JVal :=
  .obj [ (strL "score_percent", .null)
       , (strL "reasoning", .str (strL "Scoring failed"))
       , (strL "matched_skills", .arr [])
       , (strL "missing_skills", .arr [])
       , (strL "overall_score_percent", .null) ]

/-- Python `f"{g[0]}-{g[-1]}" if len(g) > 1 else str(g[0])`; raises
`IndexError` on the empty list. -/
def pageRangeStr : List Int → Except PyExn Str
  | [] => .error .indexError
  | [n] => .ok (intToStr n)
  | n :: m :: rest => .ok (intToStr n ++ '-' :: intToStr ((m :: rest).getLast (by simp)))

/-- The reply of one AI stage, leniently parsed (lines 149–163 for the
extractor, 185–201 for the scorer): a truthy reply is fence-stripped and
fed to `json.loads`; a falsy or absent reply yields the stage's
`"Error: No response"` marker as the raw text. -/
def stageParse (loads : Str → Option JVal) (resp : Option Str) (errMsg : Str) :
    Option JVal × Option Str :=
  match resp with
  | some raw =>
      if strTruthy raw then (parseLenient loads raw, some raw)
      else (none, some errMsg)
  | none => (none, some errMsg)

/-- The body of `process_single_resume_group` after the page-range string
is built (lines 130–211); it always returns a tuple. -/
def processGroupBody (loads : Str → Option JVal)
    (extractResp scoreResp : Option Str)
    (pageGroup : List Int) (ocrData : List (Option Str)) (rangeStr : Str) :
    ProcResult :=
  -- Step 1a: aggregate text; abort when empty or containing an error marker.
  let combinedText := get_text_for_pages ocrData pageGroup
  if !strTruthy combinedText || hasSub (strL "--- Error:") combinedText then
    ⟨none, none,
      some (strL "Error: Failed valid text aggregation for " ++ rangeStr ++ ['.']), none⟩
  else
    -- Step 1b/1c: call the extractor and leniently parse its reply.
    let extractPair := stageParse loads extractResp (strL "Error: No response from Extraction AI")
    -- `if not extracted_data`: parse failure, absent reply, or falsy value.
    match extractPair.1 with
    | none => ⟨none, none, extractPair.2, none⟩
    | some ex =>
      if !pyTruthy ex then ⟨none, none, extractPair.2, none⟩
      else
        -- Step 2b/2c: call the scorer and leniently parse its reply.
        let scorePair := stageParse loads scoreResp (strL "Error: No response from Scoring AI")
        -- `if not scored_data`: substitute the placeholder.
        let scoredFinal :=
          match scorePair.1 with
          | some sc => if pyTruthy sc then sc else scoringFailedPlaceholder
          | none => scoringFailedPlaceholder
        ⟨some ex, some scoredFinal, extractPair.2, scorePair.2⟩

/-- `process_single_resume_group(page_group, ocr_data, job_description)`:
building the page-range string raises `IndexError` on an empty group;
otherwise the two-stage body runs and returns a tuple. -/
def process_single_resume_group (loads : Str → Option JVal)
    (extractResp scoreResp : Option Str)
    (pageGroup : List Int) (ocrData : List (Option Str)) :
    Except PyExn ProcResult :=
  match pageRangeStr pageGroup with
  | .error e => .error e
  | .ok rangeStr => .ok (processGroupBody loads extractResp scoreResp pageGroup ocrData rangeStr)

/-! ## Job Store (storage_service.py)

The SQLite database is embedded as an explicit record of table contents.
`init_db` (lines 19–164) guarantees the live `candidates` schema declares
`FOREIGN KEY (job_id) REFERENCES jobs(job_id) ON DELETE CASCADE`, and every
writing/deleting connection issues `PRAGMA foreign_keys = ON`, so the
delete and store models below apply cascade and foreign-key semantics. -/

/-- A row of the `jobs` table.  `created_at` (`CURRENT_TIMESTAMP`) is
modelled by a monotone counter. -/
structure JobRow where
  job_id : Nat
  job_name : Str
  pdf_filename : Str
  job_description_snippet : Str
  created_at : Nat

/-- A row of the `candidates` table, one field per column of the canonical
schema in `init_db`.  TEXT columns holding serialized JSON are `Str`;
nullable TEXT columns are `Option`; REAL score columns are `Option Int`
(numbers are modelled as integers); columns bound directly from decoded
JSON values keep the `JVal` type. -/
structure CandidateRow where
  id : Nat
  resume_page_range : Str
  processing_timestamp : Str
  job_description_used : Str
  personal_information : Str
  professional_summary : Option JVal
  work_experience : Str
  education : Str
  skills : Str
  certifications : Str
  score_percent : Option Int
  score_reasoning : Option JVal
  matched_skills : Str
  missing_skills : Str
  raw_assistant1_json : Option Str
  raw_assistant2_json : Option Str
  job_id : Nat
  total_years_experience : Option Str
  total_internship_duration : Option Str
  overall_score_percent : Option Int

/-- The database: the two tables plus the engine's identity counters. -/
structure DB where
  jobs : List JobRow
  candidates : List CandidateRow
  nextJobId : Nat
  nextCandId : Nat

/-- The `UNIQUE` constraint on `jobs.job_name`. -/
def jobNamesUnique (db : DB) : Prop :=
  db.jobs.Pairwise (fun a b => a.job_name ≠ b.job_name)

/-- Primary-key uniqueness / freshness of the identity counters. -/
def idsWellFormed (db : DB) : Prop :=
  (∀ j ∈ db.jobs, j.job_id < db.nextJobId) ∧ (∀ c ∈ db.candidates, c.id < db.nextCandId)

/-- No candidate row references a non-existent job. -/
def orphanFree (db : DB) : Prop :=
  ∀ c ∈ db.candidates, ∃ j ∈ db.jobs, j.job_id = c.job_id

/-- `get_job_id_by_name(job_name)` (lines 187–203). -/
def get_job_id_by_name (db : DB) (jobName : Str) : Option Nat :=
  (db.jobs.find? (fun j => j.job_name == jobName)).map (·.job_id)

/-- `create_job(job_name, pdf_filename, job_desc_snippet)` (lines 167–185):
`INSERT`; a duplicate name raises `IntegrityError`, answered by looking up
the existing id. -/
def create_job (db : DB) (jobName pdfFilename jobDescSnippet : Str) : DB × Option Nat :=
  if db.jobs.any (fun j => j.job_name == jobName) then
    (db, get_job_id_by_name db jobName)
  else
    let j : JobRow := ⟨db.nextJobId, jobName, pdfFilename, jobDescSnippet, db.nextJobId⟩
    ({ db with jobs := db.jobs ++ [j], nextJobId := db.nextJobId + 1 }, some db.nextJobId)

/-- `delete_job_and_candidates(job_id)` (lines 220–265): rejects a falsy id,
otherwise `DELETE FROM jobs WHERE job_id = ?` on a connection with
`PRAGMA foreign_keys = ON`; the schema's `ON DELETE CASCADE` removes the
candidates of each deleted job; returns `rowcount > 0`. -/
def delete_job_and_candidates (db : DB) (jobId : Nat) : DB × Bool :=
  if jobId = 0 then (db, false)
  else if db.jobs.any (fun j => j.job_id == jobId) then
    ({ db with
        jobs := db.jobs.filter (fun j => j.job_id != jobId),
        candidates := db.candidates.filter (fun c => c.job_id != jobId) }, true)
  else (db, false)

/-! ### `store_candidate_data` (lines 269–354) and its helpers -/

/-- Value of a digit string, most significant first. -/
def natOfDigits (ds : List Char) : Nat :=
  ds.foldl (fun a c => 10 * a + (c.toNat - 48)) 0

/-- Python `float(s)` on a string, restricted to the integral literals the
integer-number model can represent; other strings raise `ValueError`. -/
def pyFloatParse (s : Str) : Option Int :=
  match trimL s with
  | '-' :: ds => if !ds.isEmpty && ds.all Char.isDigit then some (-(natOfDigits ds : Int)) else none
  | ds => if !ds.isEmpty && ds.all Char.isDigit then some (natOfDigits ds : Int) else none

/-- `_parse_num(val)` (lines 286–289): `None` stays `None`; otherwise
`float(val)`, with `ValueError`/`TypeError` producing `None`. -/
def _parse_num : Option JVal → Option Int
  | none => none
  | some .null => none
  | some (.num i) => some i
  | some (.bool b) => some (if b then 1 else 0)
  | some (.str s) => pyFloatParse s
  | some (.arr _) => none
  | some (.obj _) => none

/-- `_dump_json(data, default)` (lines 294–299) for the calls that pass a
non-`None` default: `None` data serializes the default; every `JVal` is
serializable, so the `TypeError` branch is unreachable in the model. -/
def _dump_json (data : Option JVal) (default : JVal) : Str :=
  match data with
  | none => dumps default
  | some .null => dumps default
  | some v => dumps v

/-- Python `str(v)` of a decoded JSON value (for the experience columns;
the container cases approximate Python's `repr` with JSON rendering — no
claim inspects them). -/
def pyStr : JVal → Str
  | .null => strL "None"
  | .bool true => strL "True"
  | .bool false => strL "False"
  | .num i => intToStr i
  | .str s => s
  | v => dumps v

/-- `str(x) if x is not None else None`. -/
def optStr : Option JVal → Option Str
  | none => none
  | some .null => none
  | some v => some (pyStr v)

/-- `str(raw) if raw else None` for the raw response columns. -/
def rawStr : Option Str → Option Str
  | none => none
  | some s => if s.isEmpty then none else some s

/-- Can the value be bound as a SQLite parameter?  Binding a decoded list
or dict raises, which the function's `except` clauses turn into `None`. -/
def bindable : Option JVal → Bool
  | none => true
  | some .null => true
  | some (.bool _) => true
  | some (.num _) => true
  | some (.str _) => true
  | some (.arr _) => false
  | some (.obj _) => false

/-- `store_candidate_data(job_id, page_range, job_desc, assistant1_data,
assistant2_data, raw1_json, raw2_json)`.  `now` models
`datetime.now().strftime(...)`.  Failure paths return the unchanged
database and `None`: falsy `job_id`; attribute access on a non-dict
(`.get` raises, caught by the bare `except`); unbindable column values;
the foreign-key constraint when `job_id` references no job. -/
def store_candidate_data (db : DB) (now : Str) (jobId : Nat) (pageRange jobDesc : Str)
    (assistant1Data assistant2Data : Option JVal) (raw1 raw2 : Option Str) :
    DB × Option Nat :=
  if jobId = 0 then (db, none)
  else
    let a1 := assistant1Data.getD (.obj [])
    let a2 := assistant2Data.getD (.obj [])
    if !isObj a1 || !isObj a2 then (db, none)
    else
      let workExpObj := jGetD a1 (strL "work_experience") (.obj [])
      if !isObj workExpObj then (db, none)
      else
        let professionalSummary := jGet a1 (strL "professional_summary")
        let scoreReasoning := jGet a2 (strL "reasoning")
        if !bindable professionalSummary || !bindable scoreReasoning then (db, none)
        else if !db.jobs.any (fun j => j.job_id == jobId) then (db, none)
        else
          let row : CandidateRow :=
            { id := db.nextCandId
              resume_page_range := pageRange
              processing_timestamp := now
              job_description_used := jobDesc
              personal_information := _dump_json (jGet a1 (strL "personal_information")) (.obj [])
              professional_summary := professionalSummary
              work_experience := _dump_json (some workExpObj) (.obj [])
              education := _dump_json (jGet a1 (strL "education")) (.arr [])
              skills := _dump_json (jGet a1 (strL "skills")) (.arr [])
              certifications := _dump_json (jGet a1 (strL "certifications")) (.arr [])
              score_percent := _parse_num (jGet a2 (strL "score_percent"))
              score_reasoning := scoreReasoning
              matched_skills := _dump_json (jGet a2 (strL "matched_skills")) (.arr [])
              missing_skills := _dump_json (jGet a2 (strL "missing_skills")) (.arr [])
              raw_assistant1_json := rawStr raw1
              raw_assistant2_json := rawStr raw2
              job_id := jobId
              total_years_experience := optStr (jGet workExpObj (strL "total_years_experience"))
              total_internship_duration := optStr (jGet workExpObj (strL "total_internship_duration"))
              overall_score_percent := _parse_num (jGet a2 (strL "overall_score_percent")) }
          ({ db with candidates := db.candidates ++ [row], nextCandId := db.nextCandId + 1 },
            some db.nextCandId)

/-! ### `load_candidates_for_job` (lines 357–445) -/

/-- One record of the loaded result: all candidate columns, the joined
job name, and the extracted `candidate_name`/`email` fields. -/
structure LoadedCandidate where
  row : CandidateRow
  job_name : Str
  candidate_name : JVal
  email : JVal

/-- `ORDER BY c.score_percent DESC, c.overall_score_percent DESC` with
SQLite's NULL-sorts-lowest rule (so NULLs come last under DESC). -/
def optDescLe (a b : Option Int) : Bool :=
  match a, b with
  | some x, some y => y ≤ x
  | some _, none => true
  | none, some _ => false
  | none, none => true

/-- Row comparison implementing the two-key descending order. -/
def candBefore (a b : CandidateRow) : Bool :=
  match a.score_percent, b.score_percent with
  | some x, some y =>
      if x = y then optDescLe a.overall_score_percent b.overall_score_percent else y < x
  | some _, none => true
  | none, some _ => false
  | none, none => optDescLe a.overall_score_percent b.overall_score_percent

/-- Insertion into a sorted list (the engine's ORDER BY, modelled as
insertion sort). -/
def insertBy (le : α → α → Bool) (a : α) : List α → List α
  | [] => [a]
  | b :: bs => if le a b then a :: b :: bs else b :: insertBy le a bs

/-- Insertion sort. -/
def sortBy (le : α → α → Bool) : List α → List α
  | [] => []
  | a :: as => insertBy le a (sortBy le as)

/-- The per-row processing of lines 403–433: parse `personal_information`
defensively and attach `candidate_name`/`email`, defaulting to `"N/A"` on a
missing key, parse failure, or a non-dict result. -/
def denormRow (loads : Str → Option JVal) (pair : CandidateRow × Str) : LoadedCandidate :=
  let piJson := pair.1.personal_information
  let na : JVal := .str (strL "N/A")
  let nameEmail :=
    if strTruthy piJson then
      match loads piJson with
      | some (.obj kvs) =>
          (jGetD (.obj kvs) (strL "full_name") na, jGetD (.obj kvs) (strL "email") na)
      | _ => (na, na)
    else (na, na)
  ⟨pair.1, pair.2, nameEmail.1, nameEmail.2⟩

/-- `load_candidates_for_job(job_id)`: the join of matching candidates with
their job, ordered by the two score keys descending, then denormalized. -/
def load_candidates_for_job (loads : Str → Option JVal) (db : DB) (jobId : Nat) :
    List LoadedCandidate :=
  if jobId = 0 then []
  else
    let joined := db.candidates.filterMap (fun c =>
      if c.job_id == jobId then
        (db.jobs.find? (fun j => j.job_id == c.job_id)).map (fun j => (c, j.job_name))
      else none)
    (sortBy (fun a b => candBefore a.1 b.1) joined).map (denormRow loads)

/-! ## Schema migration (`init_db`, storage_service.py lines 19–164)

The pre-existing `candidates` table is embedded generically: a column list
(from `PRAGMA table_info`), rows as association lists from column name to
SQL value, and the `on_delete` action of the `job_id` foreign key (from
`PRAGMA foreign_key_list`, uppercased as the code does; `none` when no
`job_id` foreign key exists).  The migration script — rename, create,
copy common columns, drop — runs inside a single transaction; a failure at
any step rolls the schema back and re-raises. -/

/-- A SQLite value in a generic table. -/
inductive SqlVal where
  | null : SqlVal
  | int : Int → SqlVal
  | text : Str → SqlVal

/-- A generic table as introspected by `init_db`. -/
structure GTable where
  cols : List Str
  rows : List (List (Str × SqlVal))
  fkJobIdOnDelete : Option Str

/-- The canonical `candidates` column list of `correct_schema_sql`,
in declaration order. -/
def canonicalCols : List Str :=
  [ strL "id", strL "resume_page_range", strL "processing_timestamp"
  , strL "job_description_used", strL "personal_information"
  , strL "professional_summary", strL "work_experience", strL "education"
  , strL "skills", strL "certifications", strL "score_percent"
  , strL "score_reasoning", strL "matched_skills", strL "missing_skills"
  , strL "raw_assistant1_json", strL "raw_assistant2_json", strL "job_id"
  , strL "total_years_experience", strL "total_internship_duration"
  , strL "overall_score_percent" ]

/-- The empty table `correct_schema_sql` creates, whose `job_id` foreign
key declares `ON DELETE CASCADE`. -/
def canonicalTable : GTable :=
  { cols := canonicalCols, rows := [], fkJobIdOnDelete := some (strL "CASCADE") }

/-- Lines 76–89: migrate when the `job_id` foreign key's `on_delete`
action differs from `CASCADE`, or when no `job_id` foreign key exists. -/
def needsMigration (t : GTable) : Bool :=
  match t.fkJobIdOnDelete with
  | some act => act != strL "CASCADE"
  | none => true

/-- The two table names the migration script touches. -/
structure SchemaState where
  candidates : Option GTable
  candidatesOldMigration : Option GTable

/-- `SELECT`ing a column of a row (`NULL` when the row lacks it). -/
def rowVal (r : List (Str × SqlVal)) (c : Str) : SqlVal := (r.lookup c).getD .null

/-- The row `INSERT INTO candidates (common…) SELECT common… FROM
candidates_old_migration` produces: common columns copied, the remaining
canonical columns `NULL`. -/
def copiedRow (newCols common : List Str) (r : List (Str × SqlVal)) : List (Str × SqlVal) :=
  newCols.map (fun c => (c, if common.contains c then rowVal r c else SqlVal.null))

/-- One step of the migration script (lines 104–132), executed against the
live schema; `none` models a `sqlite3.Error` raised by the statement. -/
def migStep (k : Nat) (s : SchemaState) : Option SchemaState :=
  match k with
  | 0 => -- ALTER TABLE candidates RENAME TO candidates_old_migration
    match s.candidates, s.candidatesOldMigration with
    | some t, none => some ⟨none, some t⟩
    | _, _ => none
  | 1 => -- CREATE TABLE candidates (correct_schema_sql)
    match s.candidates with
    | none => some ⟨some canonicalTable, s.candidatesOldMigration⟩
    | some _ => none
  | 2 => -- copy the columns common to both tables, when any exist
    match s.candidates, s.candidatesOldMigration with
    | some nt, some ot =>
      let common := ot.cols.filter (fun c => nt.cols.contains c)
      if common.isEmpty then some s
      else some ⟨some { nt with rows := nt.rows ++ ot.rows.map (copiedRow nt.cols common) },
                 s.candidatesOldMigration⟩
    | _, _ => none
  | 3 => -- DROP TABLE candidates_old_migration
    match s.candidatesOldMigration with
    | some _ => some ⟨s.candidates, none⟩
    | none => none
  | _ => none

/-- One statement of the transaction: runs unless the `failAt` oracle
injects a `sqlite3.Error` at this step. -/
def runStep (failAt : Option Nat) (k : Nat) (s : SchemaState) : Option SchemaState :=
  if failAt = some k then none else migStep k s

/-- The transaction around the script: the four statements run in order; a
failure — whether raised by a statement or injected by the `failAt`
oracle — rolls the schema back to the initial state and re-raises
(`Except.error` carries the visible post-rollback state). -/
def runMigration (init : SchemaState) (failAt : Option Nat) : Except SchemaState SchemaState :=
  match runStep failAt 0 init with
  | none => .error init
  | some s1 =>
    match runStep failAt 1 s1 with
    | none => .error init
    | some s2 =>
      match runStep failAt 2 s2 with
      | none => .error init
      | some s3 =>
        match runStep failAt 3 s3 with
        | none => .error init
        | some s4 => .ok s4

/-- The `candidates` branch of `init_db`: create the canonical table when
absent; migrate when present with a deficient foreign key; otherwise leave
the schema untouched. -/
def init_db_candidates (existing : Option GTable) (failAt : Option Nat) :
    Except SchemaState SchemaState :=
  match existing with
  | none => .ok ⟨some canonicalTable, none⟩
  | some t =>
    if needsMigration t then runMigration ⟨some t, none⟩ failAt
    else .ok ⟨some t, none⟩

/-! ## Helper lemmas: substrings, trimming, digits, serialization ends -/

theorem leadsWith_refl_append (p t : Str) : leadsWith p (p ++ t) = true := by
  induction p with
  | nil => rfl
  | cons a as ih => simp [leadsWith, ih]

theorem leadsWith_append_of {p l : Str} (t : Str) (h : leadsWith p l = true) :
    leadsWith p (l ++ t) = true := by
  induction p generalizing l with
  | nil => rfl
  | cons a as ih =>
    cases l with
    | nil => simp [leadsWith] at h
    | cons b bs =>
      simp only [leadsWith, Bool.and_eq_true] at h ⊢
      exact ⟨h.1, ih h.2⟩

theorem leadsWith_nil (l : Str) : leadsWith [] l = true := by cases l <;> rfl

theorem hasSub_nil (l : Str) : hasSub [] l = true := by
  cases l <;> simp [hasSub, leadsWith_nil]

theorem hasSub_of_leadsWith {p l : Str} (h : leadsWith p l = true) : hasSub p l = true := by
  cases l with
  | nil => simpa [hasSub] using h
  | cons c rest => simp [hasSub, h]

theorem hasSub_append_left {p x : Str} (y : Str) (h : hasSub p x = true) :
    hasSub p (x ++ y) = true := by
  induction x with
  | nil =>
    simp only [hasSub] at h
    cases p with
    | nil => simpa using hasSub_nil y
    | cons a as => simp [leadsWith] at h
  | cons c r ih =>
    simp only [hasSub, Bool.or_eq_true] at h
    rcases h with h | h
    · exact hasSub_of_leadsWith (leadsWith_append_of y h)
    · simp only [List.cons_append, hasSub, Bool.or_eq_true]
      exact Or.inr (ih h)

theorem hasSub_append_right {p y : Str} (x : Str) (h : hasSub p y = true) :
    hasSub p (x ++ y) = true := by
  induction x with
  | nil => simpa using h
  | cons c r ih => simp only [List.cons_append, hasSub, Bool.or_eq_true]; exact Or.inr ih

theorem hasSub_joinBlocks_of_mem {p b : Str} {bs : List Str} (hb : b ∈ bs)
    (h : hasSub p b = true) : hasSub p (joinBlocks bs) = true := by
  induction bs with
  | nil => cases hb
  | cons x rest ih =>
    cases rest with
    | nil =>
      rcases List.mem_singleton.mp hb with rfl
      simpa [joinBlocks] using h
    | cons y r =>
      rcases List.mem_cons.mp hb with rfl | hb'
      · exact hasSub_append_left _ h
      · have := ih hb'
        simpa [joinBlocks] using
          hasSub_append_right (p := p) x
            (hasSub_append_right (y := joinBlocks (y :: r)) ['\n', '\n'] this)

theorem dropWhile_eq_self_of_head {p : Char → Bool} {l : Str}
    (h : ∀ c, l.head? = some c → p c = false) : l.dropWhile p = l := by
  cases l with
  | nil => rfl
  | cons c t => simp [List.dropWhile, h c rfl]

theorem trimL_eq_self_of {s : Str}
    (h1 : ∀ c, s.head? = some c → pyWs c = false)
    (h2 : ∀ c, s.getLast? = some c → pyWs c = false) : trimL s = s := by
  unfold trimL
  rw [dropWhile_eq_self_of_head h1]
  rw [dropWhile_eq_self_of_head (by simpa [List.head?_reverse] using h2)]
  exact List.reverse_reverse s

theorem trimL_cons_ws {c : Char} (h : pyWs c = true) (l : Str) :
    trimL (c :: l) = trimL l := by
  unfold trimL
  simp [List.dropWhile, h]

theorem trimL_append_ws {c : Char} (h : pyWs c = true) (l : Str) :
    trimL (l ++ [c]) = trimL l := by
  unfold trimL
  rw [List.dropWhile_append]
  by_cases he : (l.dropWhile pyWs).isEmpty
  · simp [he, List.dropWhile, h, List.isEmpty_iff.mp he]
  · simp only [he, if_false, Bool.false_eq_true]
    rw [List.reverse_append]
    simp [List.dropWhile, h]

/-- The backtick character (written via its code point). -/
def btick : Char := Char.ofNat 96

/-- A character that survives trimming and cannot open or close a code
fence. -/
def goodChar (c : Char) : Bool := !pyWs c && c != btick

/-- The ten decimal digit characters. -/
def digitChars : List Char := ['0', '1', '2', '3', '4', '5', '6', '7', '8', '9']

theorem digitChar_mem {d : Nat} (h : d < 10) : Nat.digitChar d ∈ digitChars := by
  interval_cases d <;> decide

theorem natDigitsAux_mem (fuel n : Nat) : ∀ c ∈ natDigitsAux fuel n, c ∈ digitChars := by
  induction fuel generalizing n with
  | zero => intro c hc; cases hc
  | succ fuel ih =>
    intro c hc
    simp only [natDigitsAux] at hc
    split at hc
    · rcases List.mem_singleton.mp hc with rfl
      exact digitChar_mem (by omega)
    · rcases List.mem_append.mp hc with h | h
      · exact ih _ c h
      · rcases List.mem_singleton.mp h with rfl
        exact digitChar_mem (Nat.mod_lt _ (by omega))

theorem natDigits_mem (n : Nat) : ∀ c ∈ natDigits n, c ∈ digitChars :=
  natDigitsAux_mem (n + 1) n

theorem natDigits_ne_nil (n : Nat) : natDigits n ≠ [] := by
  unfold natDigits natDigitsAux
  split <;> simp

theorem goodChar_of_digit {c : Char} (h : c ∈ digitChars) :
    goodChar c = true ∧ pyWs c = false := by
  fin_cases h <;> exact ⟨rfl, rfl⟩

theorem mem_of_head? {l : Str} {c : Char} (h : l.head? = some c) : c ∈ l := by
  cases l with
  | nil => cases h
  | cons a t => rw [List.head?_cons] at h; exact (Option.some_injective _ h) ▸ List.mem_cons_self a t

theorem mem_of_getLast? {l : Str} {c : Char} (h : l.getLast? = some c) : c ∈ l := by
  have hmem : c ∈ l.getLast? := by simp [h, Option.mem_def]
  rcases List.mem_getLast?_eq_getLast (l := l) hmem with ⟨hne, heq⟩
  rw [heq]
  exact List.getLast_mem hne

theorem intToStr_head_good (i : Int) : ∀ c, (intToStr i).head? = some c → goodChar c = true := by
  intro c hc
  unfold intToStr at hc
  split at hc
  · rw [List.head?_cons] at hc
    rcases Option.some_injective _ hc with rfl
    rfl
  · exact (goodChar_of_digit (natDigits_mem _ c (mem_of_head? hc))).1

theorem intToStr_last_digit (i : Int) :
    ∀ c, (intToStr i).getLast? = some c → c ∈ digitChars := by
  intro c hc
  unfold intToStr at hc
  split at hc
  · rw [List.getLast?_cons] at hc
    rcases Option.some_injective _ hc with rfl
    have hne := natDigits_ne_nil i.natAbs
    rw [List.getLast?_eq_getLast_of_ne_nil hne]
    exact natDigits_mem _ _ (List.getLast_mem hne)
  · exact natDigits_mem _ c (mem_of_getLast? hc)

theorem intToStr_ne_nil (i : Int) : intToStr i ≠ [] := by
  unfold intToStr
  split
  · simp
  · exact natDigits_ne_nil _

theorem dumps_ne_nil (o : JVal) : dumps o ≠ [] := by
  cases o with
  | null => simp [dumps, strL]
  | bool b => cases b <;> simp [dumps, strL]
  | num i => simpa [dumps] using intToStr_ne_nil i
  | str s => simp [dumps]
  | arr xs => simp [dumps]
  | obj kvs => simp [dumps]

theorem dumps_head_good (o : JVal) :
    ∀ c, (dumps o).head? = some c → goodChar c = true := by
  intro c hc
  cases o with
  | null => rcases Option.some_injective _ (by simpa [dumps, strL] using hc) with rfl; rfl
  | bool b =>
    cases b <;>
      (rcases Option.some_injective _ (by simpa [dumps, strL] using hc) with rfl; rfl)
  | num i => exact intToStr_head_good i c (by simpa [dumps] using hc)
  | str s => rcases Option.some_injective _ (by simpa [dumps] using hc) with rfl; rfl
  | arr xs => rcases Option.some_injective _ (by simpa [dumps] using hc) with rfl; rfl
  | obj kvs => rcases Option.some_injective _ (by simpa [dumps] using hc) with rfl; rfl

theorem dumps_last_good (o : JVal) :
    ∀ c, (dumps o).getLast? = some c → goodChar c = true := by
  intro c hc
  cases o with
  | null =>
    rcases Option.some_injective _ (by simpa [dumps, strL] using hc) with rfl; rfl
  | bool b =>
    cases b <;>
      (rcases Option.some_injective _ (by simpa [dumps, strL] using hc) with rfl; rfl)
  | num i => exact (goodChar_of_digit (intToStr_last_digit i c (by simpa [dumps] using hc))).1
  | str s =>
    have : dumps (.str s) = ('"' :: escape s) ++ ['"'] := by simp [dumps]
    rw [this, List.getLast?_append_of_ne_nil _ (by simp)] at hc
    rcases Option.some_injective _ (by simpa using hc) with rfl; rfl
  | arr xs =>
    have : dumps (.arr xs) = ('[' :: commaJoin (dumpsList xs)) ++ [']'] := by simp [dumps]
    rw [this, List.getLast?_append_of_ne_nil _ (by simp)] at hc
    rcases Option.some_injective _ (by simpa using hc) with rfl; rfl
  | obj kvs =>
    have : dumps (.obj kvs) = ('{' :: commaJoin (dumpsObj kvs)) ++ ['}'] := by simp [dumps]
    rw [this, List.getLast?_append_of_ne_nil _ (by simp)] at hc
    rcases Option.some_injective _ (by simpa using hc) with rfl; rfl

theorem pyWs_false_of_good {c : Char} (h : goodChar c = true) : pyWs c = false := by
  simp only [goodChar, Bool.and_eq_true, Bool.not_eq_true'] at h
  exact h.1

theorem bne_btick_of_good {c : Char} (h : goodChar c = true) : (btick == c) = false := by
  simp only [goodChar, Bool.and_eq_true, bne_iff_ne, ne_eq] at h
  exact beq_eq_false_iff_ne.mpr (Ne.symm h.2)

theorem leadsWith_cons_false {a : Char} (p l : Str)
    (h : ∀ c, l.head? = some c → (a == c) = false) : leadsWith (a :: p) l = false := by
  cases l with
  | nil => rfl
  | cons c t => simp [leadsWith, h c rfl]

/-- A string with good (non-whitespace, non-backtick) first and last
characters passes through the fence-stripping untouched. -/
theorem stripFences_eq_self_of {s : Str}
    (hhead : ∀ c, s.head? = some c → goodChar c = true)
    (hlast : ∀ c, s.getLast? = some c → goodChar c = true) :
    stripFences s = s := by
  have htrim : trimL s = s :=
    trimL_eq_self_of (fun c hc => pyWs_false_of_good (hhead c hc))
      (fun c hc => pyWs_false_of_good (hlast c hc))
  have hlead : leadsWith (strL "```json") s = false := by
    have hsh : strL "```json" = btick :: strL "``json" := rfl
    rw [hsh]
    exact leadsWith_cons_false _ _ (fun c hc => bne_btick_of_good (hhead c hc))
  have htrail : trailsWith (strL "```") s = false := by
    unfold trailsWith
    have hsh : (strL "```").reverse = btick :: strL "``" := rfl
    rw [hsh]
    refine leadsWith_cons_false _ _ (fun c hc => ?_)
    rw [List.head?_reverse] at hc
    exact bne_btick_of_good (hlast c hc)
  simp only [stripFences, htrim, hlead, htrail, Bool.false_eq_true, if_false]

/-- Wrapping the same kind of string in code-fence markers and then
fence-stripping recovers it exactly. -/
theorem stripFences_fenced_of {s : Str}
    (hhead : ∀ c, s.head? = some c → goodChar c = true)
    (hlast : ∀ c, s.getLast? = some c → goodChar c = true) :
    stripFences (fencedWrap s) = s := by
  have hF : fencedWrap s = strL "```json" ++ '\n' :: (s ++ '\n' :: strL "```") := rfl
  -- the wrapper's first and last characters are backticks, so trimming is a no-op
  have htrim : trimL (fencedWrap s) = fencedWrap s := by
    refine trimL_eq_self_of (fun c hc => ?_) (fun c hc => ?_)
    · have hcons : fencedWrap s = btick :: (strL "``json" ++ '\n' :: (s ++ '\n' :: strL "```")) := rfl
      rw [hcons, List.head?_cons] at hc
      rcases Option.some_injective _ hc with rfl
      rfl
    · have hconc : fencedWrap s =
          (strL "```json" ++ '\n' :: (s ++ '\n' :: strL "``")) ++ [btick] := by
        rw [hF]
        rw [show ('\n' :: strL "```" : Str) = ('\n' :: strL "``") ++ [btick] from by decide]
        simp
      rw [hconc, List.getLast?_concat] at hc
      rcases Option.some_injective _ hc with rfl
      rfl
  have hlead : leadsWith (strL "```json") (fencedWrap s) = true := by
    rw [hF]; exact leadsWith_refl_append _ _
  have hdrop : (fencedWrap s).drop 7 = '\n' :: (s ++ '\n' :: strL "```") := by
    rw [hF]
    have h7 : 7 = (strL "```json").length := rfl
    rw [h7, List.drop_left]
  have htrail :
      trailsWith (strL "```") ('\n' :: (s ++ '\n' :: strL "```")) = true := by
    unfold trailsWith
    have hrevlit : List.reverse (strL "```") = strL "```" := by decide
    have hrev : ('\n' :: (s ++ '\n' :: strL "```")).reverse =
        strL "```" ++ ('\n' :: (s.reverse ++ ['\n'])) := by
      simp [List.reverse_cons, List.reverse_append, hrevlit]
    rw [hrev, hrevlit]
    exact leadsWith_refl_append _ _
  have hdropR : dropRightL 3 ('\n' :: (s ++ '\n' :: strL "```")) = '\n' :: (s ++ ['\n']) := by
    have hsh : '\n' :: (s ++ '\n' :: strL "```") = ('\n' :: (s ++ ['\n'])) ++ strL "```" := by
      simp
    rw [hsh]
    unfold dropRightL
    have hlen : (('\n' :: (s ++ ['\n'])) ++ strL "```").length - 3 =
        ('\n' :: (s ++ ['\n'])).length := by
      simp [List.length_append, strL]
    rw [hlen, List.take_left]
  have hfin : trimL ('\n' :: (s ++ ['\n'])) = s := by
    rw [trimL_cons_ws (by rfl), trimL_append_ws (by rfl)]
    exact trimL_eq_self_of (fun c hc => pyWs_false_of_good (hhead c hc))
      (fun c hc => pyWs_false_of_good (hlast c hc))
  simp only [stripFences, htrim, hlead, if_true, hdrop, htrail, hdropR]
  exact hfin

/-- Fence-stripping leaves a serialized JSON value untouched. -/
theorem stripFences_dumps (o : JVal) : stripFences (dumps o) = dumps o :=
  stripFences_eq_self_of (dumps_head_good o) (dumps_last_good o)

/-- Fence-stripping a fence-wrapped serialized JSON value recovers the
serialization. -/
theorem stripFences_fenced_dumps (o : JVal) :
    stripFences (fencedWrap (dumps o)) = dumps o :=
  stripFences_fenced_of (dumps_head_good o) (dumps_last_good o)

/-! ## Aggregator and orchestrator lemmas -/

theorem foldr_cons_eq_map {α β : Type} (f : α → β) (l : List α) :
    l.foldr (fun a acc => f a :: acc) [] = l.map f := by
  induction l with
  | nil => rfl
  | cons a t ih => simp [ih]

theorem get_text_eq_joinBlocks (ocr : List (Option Str)) (pns : List Int)
    (hocr : ocr ≠ []) :
    get_text_for_pages ocr pns = joinBlocks (pns.map (pageBlock ocr)) := by
  unfold get_text_for_pages
  rw [if_neg (by simpa using hocr), foldr_cons_eq_map]

theorem pageBlock_oob (ocr : List (Option Str)) (n : Int)
    (hoob : ¬(1 ≤ n ∧ n ≤ (ocr.length : Int))) :
    pageBlock ocr n = strL "--- Error: Page " ++ intToStr n ++ strL " not found ---" := by
  simp only [pageBlock]
  rw [dif_neg (by omega)]

theorem hasSub_error_marker (ocr : List (Option Str)) (pns : List Int) (n : Int)
    (hocr : ocr ≠ []) (hn : n ∈ pns) (hoob : ¬(1 ≤ n ∧ n ≤ (ocr.length : Int)))
    (p : Str) (hp : leadsWith p (strL "--- Error: Page ") = true) :
    hasSub p (get_text_for_pages ocr pns) = true := by
  rw [get_text_eq_joinBlocks ocr pns hocr]
  refine hasSub_joinBlocks_of_mem (List.mem_map_of_mem (pageBlock ocr) hn) ?_
  rw [pageBlock_oob ocr n hoob, List.append_assoc]
  exact hasSub_of_leadsWith (leadsWith_append_of _ hp)

/-! ## C7: aggregator block structure -/

/-- Concrete 5-page OCR input for the spec's Scenario A (pages 3 and 4
hold nonempty resume text). -/
def c7ocr : List (Option Str) :=
  [some (strL "p1"), some (strL "p2"), some (strL "Alice resume"),
   some (strL "Bob resume"), some (strL "p5")]

/-- C7: for every page-group input and page-text array, the `aggregate`
output is exactly one delimited block per requested page number, in the
requested order, joined by blank-line separation; an out-of-range
requested page yields the visible error marker block (the function is
total, so no exception); and for page group `[3, 4]` over the 5-page
array with pages 3 and 4 nonempty, the output contains both a
`"Start Page 3"` and a `"Start Page 4"` block and no error markers. -/
theorem C7_aggregate_block_structure (ocr : List (Option Str)) (pns : List Int)
    (n : Int) (hocr : ocr ≠ []) (hoob : ¬(1 ≤ n ∧ n ≤ (ocr.length : Int))) :
    get_text_for_pages ocr pns = joinBlocks (pns.map (pageBlock ocr)) ∧
    pageBlock ocr n = strL "--- Error: Page " ++ intToStr n ++ strL " not found ---" ∧
    (n ∈ pns → hasSub (strL "--- Error: Page ") (get_text_for_pages ocr pns) = true) ∧
    hasSub (strL "Start Page 3") (get_text_for_pages c7ocr [3, 4]) = true ∧
    hasSub (strL "Start Page 4") (get_text_for_pages c7ocr [3, 4]) = true ∧
    hasSub (strL "--- Error") (get_text_for_pages c7ocr [3, 4]) = false := by
  refine ⟨get_text_eq_joinBlocks ocr pns hocr, pageBlock_oob ocr n hoob,
    fun hn => hasSub_error_marker ocr pns n hocr hn hoob _ (by decide), ?_, ?_, ?_⟩
  · rfl
  · rfl
  · rfl

/-- Witness for C7 at a one-page array with the out-of-range page 2
requested. -/
theorem C7_aggregate_block_structure_witness :
    (([some (strL "x")] : List (Option Str)) ≠ [] ∧
      ¬(1 ≤ (2 : Int) ∧ (2 : Int) ≤ (([some (strL "x")] : List (Option Str)).length : Int))) ∧
    (get_text_for_pages [some (strL "x")] [2] =
        joinBlocks (([2] : List Int).map (pageBlock [some (strL "x")])) ∧
      pageBlock [some (strL "x")] 2 =
        strL "--- Error: Page " ++ intToStr 2 ++ strL " not found ---" ∧
      ((2 : Int) ∈ ([2] : List Int) →
        hasSub (strL "--- Error: Page ") (get_text_for_pages [some (strL "x")] [2]) = true) ∧
      hasSub (strL "Start Page 3") (get_text_for_pages c7ocr [3, 4]) = true ∧
      hasSub (strL "Start Page 4") (get_text_for_pages c7ocr [3, 4]) = true ∧
      hasSub (strL "--- Error") (get_text_for_pages c7ocr [3, 4]) = false) :=
  ⟨⟨by decide, by decide⟩,
    C7_aggregate_block_structure [some (strL "x")] [2] 2 (by decide) (by decide)⟩

/-! ## C8: lenient JSON parsing accepts fenced and unfenced replies -/

/-- C8: the lenient parsing shared by both AI stages accepts both fenced
and unfenced JSON: whenever the `json.loads` oracle decodes the plain
serialization of `o` back to `o`, the stage-level parse yields `o` both on
the plain serialization and on the serialization wrapped in leading and
trailing code-fence markers (the markers are stripped before parsing). -/
theorem C8_lenient_parse_accepts_fenced_and_unfenced
    (loads : Str → Option JVal) (o : JVal) (hloads : loads (dumps o) = some o) :
    parseLenient loads (dumps o) = some o ∧
    parseLenient loads (fencedWrap (dumps o)) = some o := by
  unfold parseLenient
  rw [stripFences_dumps, stripFences_fenced_dumps]
  exact ⟨hloads, hloads⟩

/-- A concrete JSON object for the C8 witness. -/
def c8obj : JVal := .obj [(strL "score_percent", .num 85)]

/-- A concrete `json.loads` oracle decoding exactly the serialization of
`c8obj`. -/
def c8loads : Str → Option JVal :=
  fun s => if s = dumps c8obj then some c8obj else none

/-- Witness for C8 at a concrete object and oracle. -/
theorem C8_lenient_parse_witness :
    c8loads (dumps c8obj) = some c8obj ∧
    (parseLenient c8loads (dumps c8obj) = some c8obj ∧
     parseLenient c8loads (fencedWrap (dumps c8obj)) = some c8obj) :=
  ⟨rfl, C8_lenient_parse_accepts_fenced_and_unfenced c8loads c8obj rfl⟩

/-! ## C10: `process_single_resume_group` on the empty page group -/

/-- C10: the orchestrator is only total for non-empty page groups: the
empty page group raises `IndexError` at `page_group[0]` before any
validation or aggregation, instead of returning a failure tuple; for every
non-empty page group the call returns a tuple (no exception escapes). -/
theorem C10_empty_group_raises_index_error (loads : Str → Option JVal)
    (er sr : Option Str) (ocr : List (Option Str)) (pg : List Int) (hpg : pg ≠ []) :
    process_single_resume_group loads er sr [] ocr = .error .indexError ∧
    ∃ r, process_single_resume_group loads er sr pg ocr = .ok r := by
  constructor
  · rfl
  · obtain ⟨n, rest, rfl⟩ : ∃ n rest, pg = n :: rest := by
      cases pg with
      | nil => cases hpg rfl
      | cons a b => exact ⟨a, b, rfl⟩
    obtain ⟨rs, hrs⟩ : ∃ rs, pageRangeStr (n :: rest) = .ok rs := by
      cases rest <;> exact ⟨_, rfl⟩
    refine ⟨processGroupBody loads er sr (n :: rest) ocr rs, ?_⟩
    unfold process_single_resume_group
    rw [hrs]

/-- Witness for C10 at the singleton page group `[1]`. -/
theorem C10_empty_group_witness :
    (([1] : List Int) ≠ []) ∧
    (process_single_resume_group (fun _ => none) none none [] [] = .error .indexError ∧
     ∃ r, process_single_resume_group (fun _ => none) none none [1] [] = .ok r) :=
  ⟨by decide, C10_empty_group_raises_index_error (fun _ => none) none none [] [1] (by decide)⟩

/-! ## C3: per-page error markers abort the orchestrator at step 1 -/

/-- A decodable extraction object for the C3 counterexample. -/
def c3obj : JVal := .obj [(strL "full_name", .str (strL "Alice"))]

/-- A `json.loads` oracle that decodes the serialization of `c3obj`. -/
def c3loads : Str → Option JVal := fun s => if s = dumps c3obj then some c3obj else none

/-- C3 counterexample: over a 1-page text array, the page group `[1, 2]`
contains the out-of-range page 2; even though the extraction oracle holds
a reply that parses to a truthy record, `process_single_resume_group`
returns the step-1 abort tuple `(absent, absent, errorText, absent)` —
it does NOT proceed to the extraction stage, because the per-page
out-of-range marker makes the aggregated text contain `"--- Error:"`. -/
theorem C3_counterexample :
    parseLenient c3loads (dumps c3obj) = some c3obj ∧ pyTruthy c3obj = true ∧
    process_single_resume_group c3loads (some (dumps c3obj)) (some (dumps c3obj))
        [1, 2] [some (strL "resume text")] =
      .ok ⟨none, none,
        some (strL "Error: Failed valid text aggregation for 1-2."), none⟩ :=
  ⟨rfl, rfl, rfl⟩

/-- C3 amended: the aggregator appends a visible per-page error marker
instead of raising, but `process_single_resume_group` aborts at step 1
whenever the aggregated text is empty or contains any `"--- Error:"`
marker — per-page out-of-range markers included — so for every non-empty
page group containing an out-of-range page over a non-empty pages array,
the call returns the step-1 abort tuple and never reaches extraction. -/
theorem C3_oob_page_aborts_before_extraction (loads : Str → Option JVal)
    (er sr : Option Str) (pg : List Int) (ocr : List (Option Str)) (rs : Str) (n : Int)
    (hrs : pageRangeStr pg = .ok rs)
    (hn : n ∈ pg) (hoob : ¬(1 ≤ n ∧ n ≤ (ocr.length : Int))) (hocr : ocr ≠ []) :
    process_single_resume_group loads er sr pg ocr =
      .ok ⟨none, none,
        some (strL "Error: Failed valid text aggregation for " ++ rs ++ ['.']), none⟩ := by
  have hsub := hasSub_error_marker ocr pg n hocr hn hoob (strL "--- Error:") (by decide)
  unfold process_single_resume_group
  rw [hrs]
  unfold processGroupBody
  simp only [hsub, Bool.or_true, if_true]

/-- Witness for the amended C3 at page group `[1, 2]` over one page. -/
theorem C3_oob_page_aborts_witness :
    (pageRangeStr [1, 2] = .ok (strL "1-2") ∧ (2 : Int) ∈ ([1, 2] : List Int) ∧
      ¬(1 ≤ (2 : Int) ∧ (2 : Int) ≤ (([some (strL "resume text")] : List (Option Str)).length : Int)) ∧
      ([some (strL "resume text")] : List (Option Str)) ≠ []) ∧
    process_single_resume_group c3loads (some (dumps c3obj)) none
        [1, 2] [some (strL "resume text")] =
      .ok ⟨none, none,
        some (strL "Error: Failed valid text aggregation for " ++ strL "1-2" ++ ['.']), none⟩ :=
  ⟨⟨rfl, by decide, by decide, by decide⟩,
    C3_oob_page_aborts_before_extraction c3loads (some (dumps c3obj)) none
      [1, 2] [some (strL "resume text")] (strL "1-2") 2 rfl (by decide) (by decide) (by decide)⟩

/-! ## C5: scoring failure yields the placeholder, extraction survives -/

/-- C5: when extraction succeeds (a truthy parsed record) but the scoring
response is absent or unparsable, the resume is not failed: the call
returns the extracted record unchanged together with exactly the
placeholder scored record `{score_percent: null, reasoning: "Scoring
failed", matched_skills: [], missing_skills: [], overall_score_percent:
null}`. -/
theorem C5_scoring_failure_placeholder (loads : Str → Option JVal)
    (sr : Option Str) (pg : List Int) (ocr : List (Option Str)) (rs raw : Str) (ex : JVal)
    (hrs : pageRangeStr pg = .ok rs)
    (hct1 : strTruthy (get_text_for_pages ocr pg) = true)
    (hct2 : hasSub (strL "--- Error:") (get_text_for_pages ocr pg) = false)
    (hraw : strTruthy raw = true)
    (hparse : parseLenient loads raw = some ex) (hex : pyTruthy ex = true)
    (hsr : sr = none ∨ ∃ raw2, sr = some raw2 ∧ strTruthy raw2 = true ∧
            parseLenient loads raw2 = none) :
    ∃ rawScore, process_single_resume_group loads (some raw) sr pg ocr =
      .ok ⟨some ex, some scoringFailedPlaceholder, some raw, rawScore⟩ := by
  unfold process_single_resume_group
  rw [hrs]
  unfold processGroupBody
  simp only [hct1, hct2, Bool.not_true, Bool.or_false, if_false]
  simp only [stageParse, hraw, if_true, hparse, hex, Bool.not_true, Bool.false_eq_true,
    if_false]
  rcases hsr with rfl | ⟨raw2, rfl, hr2, hp2⟩
  · exact ⟨_, rfl⟩
  · refine ⟨some raw2, ?_⟩
    simp only [stageParse, hr2, if_true, hp2]

/-- A decodable extraction object for the C5 witness. -/
def c5obj : JVal := .obj [(strL "full_name", .str (strL "Bob"))]

/-- A `json.loads` oracle decoding exactly the serialization of `c5obj`. -/
def c5loads : Str → Option JVal := fun s => if s = dumps c5obj then some c5obj else none

/-- Witness for C5: extraction succeeds, the scoring response is absent. -/
theorem C5_scoring_failure_witness :
    (pageRangeStr [1] = .ok (strL "1") ∧
     strTruthy (get_text_for_pages [some (strL "hello")] [1]) = true ∧
     hasSub (strL "--- Error:") (get_text_for_pages [some (strL "hello")] [1]) = false ∧
     strTruthy (dumps c5obj) = true ∧
     parseLenient c5loads (dumps c5obj) = some c5obj ∧ pyTruthy c5obj = true) ∧
    ∃ rawScore, process_single_resume_group c5loads (some (dumps c5obj)) none
        [1] [some (strL "hello")] =
      .ok ⟨some c5obj, some scoringFailedPlaceholder, some (dumps c5obj), rawScore⟩ :=
  ⟨⟨rfl, rfl, rfl, rfl, rfl, rfl⟩,
    C5_scoring_failure_placeholder c5loads none [1] [some (strL "hello")]
      (strL "1") (dumps c5obj) c5obj rfl rfl rfl rfl rfl rfl (Or.inl rfl)⟩

/-! ## C6: `create_job` is idempotent by name -/

theorem filter_name_length_one {jobs : List JobRow} {name : Str}
    (hwf : jobs.Pairwise (fun a b => a.job_name ≠ b.job_name))
    {j₀ : JobRow} (hj : j₀ ∈ jobs) (hn : j₀.job_name = name) :
    (jobs.filter (fun j => j.job_name == name)).length = 1 := by
  induction jobs with
  | nil => cases hj
  | cons a rest ih =>
    rcases List.pairwise_cons.mp hwf with ⟨ha, hrest⟩
    rcases List.mem_cons.mp hj with rfl | hj'
    · have hnil : rest.filter (fun j => j.job_name == name) = [] := by
        refine List.filter_eq_nil_iff.mpr (fun b hb => ?_)
        have hne : b.job_name ≠ name := fun hc => (ha b hb) (hn.trans hc.symm)
        simpa using hne
      simp [List.filter_cons, hn, hnil]
    · have hane : a.job_name ≠ name := by
        intro hc
        rcases ha j₀ hj' with hcontra
        exact hcontra (hc.trans hn.symm)
      have : (a.job_name == name) = false := by simpa using hane
      simp [List.filter_cons, this, ih hrest hj']

/-- C6: calling `create_job` twice with the same name returns the same job
id both times and leaves exactly one row with that name in the jobs table
(the second call resolves the unique-name violation by looking up the
existing job's id instead of failing). -/
theorem C6_create_job_idempotent (db : DB) (name p1 s1 p2 s2 : Str)
    (hwf : jobNamesUnique db) :
    ∃ i, (create_job db name p1 s1).2 = some i ∧
      (create_job (create_job db name p1 s1).1 name p2 s2).2 = some i ∧
      ((create_job (create_job db name p1 s1).1 name p2 s2).1.jobs.filter
        (fun j => j.job_name == name)).length = 1 := by
  by_cases hex : db.jobs.any (fun j => j.job_name == name) = true
  · -- the name already exists: both calls resolve to the same lookup
    rcases List.any_eq_true.mp hex with ⟨j₀, hj₀, hbeq⟩
    have hname : j₀.job_name = name := by simpa using hbeq
    have hfind : ∃ jf, db.jobs.find? (fun j => j.job_name == name) = some jf := by
      have : (db.jobs.find? (fun j => j.job_name == name)).isSome := by
        rw [List.find?_isSome]
        exact ⟨j₀, hj₀, hbeq⟩
      exact Option.isSome_iff_exists.mp this
    rcases hfind with ⟨jf, hjf⟩
    refine ⟨jf.job_id, ?_, ?_, ?_⟩
    · simp [create_job, hex, get_job_id_by_name, hjf]
    · simp [create_job, hex, get_job_id_by_name, hjf]
    · have hjfmem := List.mem_of_find?_eq_some hjf
      have hjfname : jf.job_name = name := by
        have := List.find?_some hjf
        simpa using this
      simp only [create_job, hex, if_true]
      exact filter_name_length_one hwf hjfmem hjfname
  · -- fresh name: the first call inserts, the second looks the row up
    have hall : ∀ j ∈ db.jobs, (j.job_name == name) = false := by
      intro j hj
      by_contra hc
      exact hex (List.any_eq_true.mpr ⟨j, hj, by simpa using hc⟩)
    have hfilnil : db.jobs.filter (fun j => j.job_name == name) = [] :=
      List.filter_eq_nil_iff.mpr (fun j hj => by simpa using hall j hj)
    have hfindnil : db.jobs.find? (fun j => j.job_name == name) = none :=
      List.find?_eq_none.mpr (fun j hj => by simpa using hall j hj)
    have hexb : db.jobs.any (fun j => j.job_name == name) = false := by
      simpa using fun j hj => by simpa using hall j hj
    refine ⟨db.nextJobId, ?_, ?_, ?_⟩
    · simp [create_job, hexb]
    · simp [create_job, hexb, get_job_id_by_name, List.find?_append, hfindnil,
        List.any_append]
    · simp [create_job, hexb, get_job_id_by_name, List.find?_append, hfindnil,
        List.any_append, List.filter_append, hfilnil]

/-- Witness for C6 on a one-job database. -/
theorem C6_create_job_witness :
    jobNamesUnique ⟨[⟨1, strL "other", strL "o.pdf", strL "od", 1⟩], [], 2, 1⟩ ∧
    ∃ i, (create_job ⟨[⟨1, strL "other", strL "o.pdf", strL "od", 1⟩], [], 2, 1⟩
            (strL "J") (strL "a.pdf") (strL "d1")).2 = some i ∧
      (create_job (create_job ⟨[⟨1, strL "other", strL "o.pdf", strL "od", 1⟩], [], 2, 1⟩
            (strL "J") (strL "a.pdf") (strL "d1")).1 (strL "J") (strL "b.pdf") (strL "d2")).2 =
          some i ∧
      ((create_job (create_job ⟨[⟨1, strL "other", strL "o.pdf", strL "od", 1⟩], [], 2, 1⟩
            (strL "J") (strL "a.pdf") (strL "d1")).1 (strL "J") (strL "b.pdf") (strL "d2")).1.jobs.filter
        (fun j => j.job_name == strL "J")).length = 1 :=
  ⟨by simp [jobNamesUnique],
    C6_create_job_idempotent ⟨[⟨1, strL "other", strL "o.pdf", strL "od", 1⟩], [], 2, 1⟩
      (strL "J") (strL "a.pdf") (strL "d1") (strL "b.pdf") (strL "d2")
      (by simp [jobNamesUnique])⟩

/-! ## Store/delete lemmas and C1 -/

/-- What a successful `store_candidate_data` call guarantees: the id was
truthy, the referenced job exists (foreign-key check), the jobs table is
untouched, and exactly one candidate row was appended, carrying the
defensively parsed score fields and the serialized personal information. -/
theorem store_success_shape {db db' : DB} {now pageRange jobDesc : Str} {jobId : Nat}
    {a1 a2 : Option JVal} {r1 r2 : Option Str} {cid : Nat}
    (h : store_candidate_data db now jobId pageRange jobDesc a1 a2 r1 r2 = (db', some cid)) :
    jobId ≠ 0 ∧ (∃ j ∈ db.jobs, j.job_id = jobId) ∧
    db'.jobs = db.jobs ∧ cid = db.nextCandId ∧
    ∃ row : CandidateRow,
      db'.candidates = db.candidates ++ [row] ∧
      row.job_id = jobId ∧ row.id = db.nextCandId ∧
      row.score_percent = _parse_num (jGet (a2.getD (.obj [])) (strL "score_percent")) ∧
      row.overall_score_percent =
        _parse_num (jGet (a2.getD (.obj [])) (strL "overall_score_percent")) ∧
      row.personal_information =
        _dump_json (jGet (a1.getD (.obj [])) (strL "personal_information")) (.obj []) := by
  simp only [store_candidate_data] at h
  split_ifs at h with h0 h1 h2 h3 h4
  · exact absurd (Prod.ext_iff.mp h).2 (by simp)
  · exact absurd (Prod.ext_iff.mp h).2 (by simp)
  · exact absurd (Prod.ext_iff.mp h).2 (by simp)
  · exact absurd (Prod.ext_iff.mp h).2 (by simp)
  · exact absurd (Prod.ext_iff.mp h).2 (by simp)
  · -- the success branch
    have hdb : db' = _ := (Prod.ext_iff.mp h).1.symm
    have hcid : cid = db.nextCandId := by
      have := (Prod.ext_iff.mp h).2
      simpa using this.symm
    have hany : db.jobs.any (fun j => j.job_id == jobId) = true := by
      by_contra hc
      simp only [Bool.not_eq_true] at hc
      exact h4 (by simp [hc])
    rcases List.any_eq_true.mp hany with ⟨j, hj, hbeq⟩
    refine ⟨h0, ⟨j, hj, by simpa using hbeq⟩, ?_, hcid, ?_⟩
    · rw [hdb]
    · exact ⟨_, by rw [hdb], rfl, rfl, rfl, rfl, rfl⟩

/-- What `delete_job_and_candidates` does on an existing, truthy job id
with foreign-key enforcement on: reports success, removes the job row and
every candidate row referencing it, and preserves orphan-freedom. -/
theorem delete_job_and_candidates_spec (db : DB) (J : Nat) (hJ : J ≠ 0)
    (hex : ∃ j ∈ db.jobs, j.job_id = J) (horf : orphanFree db) :
    (delete_job_and_candidates db J).2 = true ∧
    (∀ j ∈ (delete_job_and_candidates db J).1.jobs, j.job_id ≠ J) ∧
    (∀ c ∈ (delete_job_and_candidates db J).1.candidates, c.job_id ≠ J) ∧
    orphanFree (delete_job_and_candidates db J).1 := by
  rcases hex with ⟨j₀, hj₀, hid⟩
  have hany : db.jobs.any (fun j => j.job_id == J) = true :=
    List.any_eq_true.mpr ⟨j₀, hj₀, by simpa using hid⟩
  simp only [delete_job_and_candidates, hJ, if_false, hany, if_true]
  refine ⟨trivial, ?_, ?_, ?_⟩
  · intro j hj
    have := List.of_mem_filter hj
    simpa using this
  · intro c hc
    have := List.of_mem_filter hc
    simpa using this
  · intro c hc
    have hcmem : c ∈ db.candidates := List.mem_of_mem_filter hc
    have hcne : c.job_id ≠ J := by simpa using List.of_mem_filter hc
    rcases horf c hcmem with ⟨j, hj, hjid⟩
    refine ⟨j, List.mem_filter.mpr ⟨hj, by simpa using hjid ▸ hcne⟩, hjid⟩

/-- C1: for every job `J` for which `store_candidate_data` has succeeded,
`delete_job_and_candidates J` (run, as the code does, on a connection with
foreign-key enforcement enabled against the cascade-declaring schema)
reports success, removes the job row and every candidate row whose
`job_id` references `J`, and leaves no candidate row referencing a
non-existent job. -/
theorem C1_cascade_delete_no_orphans (db db' : DB) (now : Str) (J : Nat)
    (pr jd : Str) (a1 a2 : Option JVal) (r1 r2 : Option Str) (cid : Nat)
    (hstore : store_candidate_data db now J pr jd a1 a2 r1 r2 = (db', some cid))
    (horf : orphanFree db) :
    (delete_job_and_candidates db' J).2 = true ∧
    (∀ j ∈ (delete_job_and_candidates db' J).1.jobs, j.job_id ≠ J) ∧
    (∀ c ∈ (delete_job_and_candidates db' J).1.candidates, c.job_id ≠ J) ∧
    orphanFree (delete_job_and_candidates db' J).1 := by
  rcases store_success_shape hstore with
    ⟨hJ, ⟨j, hj, hjid⟩, hjobs, _, row, hcands, hrowjob, _⟩
  have hex' : ∃ j' ∈ db'.jobs, j'.job_id = J := ⟨j, hjobs ▸ hj, hjid⟩
  have horf' : orphanFree db' := by
    intro c hc
    rw [hcands] at hc
    rcases List.mem_append.mp hc with hcl | hcr
    · rcases horf c hcl with ⟨j', hj', hjid'⟩
      exact ⟨j', hjobs ▸ hj', hjid'⟩
    · rcases List.mem_singleton.mp hcr with rfl
      exact ⟨j, hjobs ▸ hj, hrowjob ▸ hjid⟩
  exact delete_job_and_candidates_spec db' J hJ hex' horf'

/-- Concrete extraction record for the C1 witness. -/
def c1a1 : JVal :=
  .obj [(strL "personal_information", .obj [(strL "full_name", .str (strL "Al"))])]

/-- Concrete scoring record for the C1 witness. -/
def c1a2 : JVal := .obj [(strL "score_percent", .num 90)]

/-- One-job, no-candidate database for the C1 witness. -/
def c1db : DB := ⟨[⟨1, strL "job", strL "f.pdf", strL "d", 0⟩], [], 2, 1⟩

/-- The database after the C1 witness's successful store. -/
def c1db' : DB :=
  (store_candidate_data c1db (strL "ts") 1 (strL "1-1") (strL "jd")
    (some c1a1) (some c1a2) none none).1

/-- Witness for C1: store one candidate for job 1, then delete job 1. -/
theorem C1_cascade_delete_witness :
    (store_candidate_data c1db (strL "ts") 1 (strL "1-1") (strL "jd")
        (some c1a1) (some c1a2) none none = (c1db', some 1) ∧ orphanFree c1db) ∧
    ((delete_job_and_candidates c1db' 1).2 = true ∧
     (∀ j ∈ (delete_job_and_candidates c1db' 1).1.jobs, j.job_id ≠ 1) ∧
     (∀ c ∈ (delete_job_and_candidates c1db' 1).1.candidates, c.job_id ≠ 1) ∧
     orphanFree (delete_job_and_candidates c1db' 1).1) :=
  ⟨⟨rfl, by simp [orphanFree, c1db]⟩,
    C1_cascade_delete_no_orphans c1db c1db' (strL "ts") 1 (strL "1-1") (strL "jd")
      (some c1a1) (some c1a2) none none 1 rfl (by simp [orphanFree, c1db])⟩

/-! ## C2: defensive numeric parsing of score fields -/

/-- One-job database for the C2 items. -/
def c2db : DB := ⟨[⟨1, strL "job", strL "f.pdf", strL "d", 0⟩], [], 2, 1⟩

/-- A scoring record carrying the out-of-range score 150. -/
def c2a2 : JVal := .obj [(strL "score_percent", .num 150)]

/-- C2 counterexample: a `score_percent` of 150 lies outside `[0, 100]`,
yet `store_candidate_data` persists 150 — not null — because `_parse_num`
only coerces to float and never range-checks. -/
theorem C2_counterexample :
    (store_candidate_data c2db (strL "ts") 1 (strL "1-2") (strL "jd")
        (some (.obj [])) (some c2a2) none none).2 = some 1 ∧
    ((store_candidate_data c2db (strL "ts") 1 (strL "1-2") (strL "jd")
        (some (.obj [])) (some c2a2) none none).1.candidates.map
      (fun c => c.score_percent)) = [some 150] ∧
    ¬(0 ≤ (150 : Int) ∧ (150 : Int) ≤ 100) :=
  ⟨rfl, rfl, by decide⟩

/-- C2 amended: every persisted score field is exactly the result of the
defensive `_parse_num` coercion of the input: `None`, JSON null, lists,
objects and non-numeric strings persist as null (never the raw invalid
value), while numeric inputs are persisted as parsed even when outside
`[0, 100]` — no range check is applied. -/
theorem C2_scores_defensively_parsed (db db' : DB) (now : Str) (jobId : Nat)
    (pr jd : Str) (a1 a2 : Option JVal) (r1 r2 : Option Str) (cid : Nat)
    (hstore : store_candidate_data db now jobId pr jd a1 a2 r1 r2 = (db', some cid)) :
    (∃ row : CandidateRow, db'.candidates.getLast? = some row ∧
      row.score_percent = _parse_num (jGet (a2.getD (.obj [])) (strL "score_percent")) ∧
      row.overall_score_percent =
        _parse_num (jGet (a2.getD (.obj [])) (strL "overall_score_percent"))) ∧
    _parse_num none = none ∧
    _parse_num (some .null) = none ∧
    (∀ l, _parse_num (some (.arr l)) = none) ∧
    (∀ kvs, _parse_num (some (.obj kvs)) = none) ∧
    (∀ s, pyFloatParse s = none → _parse_num (some (.str s)) = none) ∧
    (∀ i, _parse_num (some (.num i)) = some i) := by
  rcases store_success_shape hstore with ⟨_, _, _, _, row, hcands, _, _, hsp, hosp, _⟩
  refine ⟨⟨row, ?_, hsp, hosp⟩, rfl, rfl, fun l => rfl, fun kvs => rfl,
    fun s hs => by simp [_parse_num, hs], fun i => rfl⟩
  rw [hcands]
  exact List.getLast?_concat _

/-- The database after the C2 witness's store. -/
def c2db' : DB :=
  (store_candidate_data c2db (strL "ts") 1 (strL "1-2") (strL "jd")
    (some (.obj [])) (some c2a2) none none).1

/-- Witness for the amended C2 at the concrete out-of-range store. -/
theorem C2_scores_defensively_parsed_witness :
    store_candidate_data c2db (strL "ts") 1 (strL "1-2") (strL "jd")
        (some (.obj [])) (some c2a2) none none = (c2db', some 1) ∧
    ((∃ row : CandidateRow, c2db'.candidates.getLast? = some row ∧
      row.score_percent =
        _parse_num (jGet ((some c2a2).getD (.obj [])) (strL "score_percent")) ∧
      row.overall_score_percent =
        _parse_num (jGet ((some c2a2).getD (.obj [])) (strL "overall_score_percent"))) ∧
    _parse_num none = none ∧
    _parse_num (some .null) = none ∧
    (∀ l, _parse_num (some (.arr l)) = none) ∧
    (∀ kvs, _parse_num (some (.obj kvs)) = none) ∧
    (∀ s, pyFloatParse s = none → _parse_num (some (.str s)) = none) ∧
    (∀ i, _parse_num (some (.num i)) = some i)) :=
  ⟨rfl, C2_scores_defensively_parsed c2db c2db' (strL "ts") 1 (strL "1-2") (strL "jd")
    (some (.obj [])) (some c2a2) none none 1 rfl⟩

/-! ## C9: store/load round-trip of name and email -/

theorem mem_insertBy {α : Type} (le : α → α → Bool) (a x : α) (l : List α) :
    x ∈ insertBy le a l ↔ x = a ∨ x ∈ l := by
  induction l with
  | nil => simp [insertBy]
  | cons b bs ih =>
    simp only [insertBy]
    split
    · simp [List.mem_cons]
    · simp only [List.mem_cons, ih]
      tauto

theorem mem_sortBy {α : Type} (le : α → α → Bool) (x : α) (l : List α) :
    x ∈ sortBy le l ↔ x ∈ l := by
  induction l with
  | nil => simp [sortBy]
  | cons a as ih => simp [sortBy, mem_insertBy, ih, List.mem_cons]

theorem strTruthy_dumps (o : JVal) : strTruthy (dumps o) = true := by
  have := dumps_ne_nil o
  simp [strTruthy, List.isEmpty_iff, this]

theorem denormRow_name_email (loads : Str → Option JVal) (r : CandidateRow) (jn : Str)
    (kvs : List (Str × JVal))
    (htr : strTruthy r.personal_information = true)
    (hloads : loads r.personal_information = some (.obj kvs)) :
    (denormRow loads (r, jn)).candidate_name =
      jGetD (.obj kvs) (strL "full_name") (.str (strL "N/A")) ∧
    (denormRow loads (r, jn)).email =
      jGetD (.obj kvs) (strL "email") (.str (strL "N/A")) := by
  unfold denormRow
  simp only [htr, if_true, hloads]
  constructor <;> trivial

/-- C9: a candidate stored with a `personal_information` object holding
`full_name` and `email` fields, when loaded through
`load_candidates_for_job` with a `json.loads` oracle that decodes the
serialization back, yields a record whose `candidate_name` equals the
stored object's `full_name` and whose `email` equals the stored object's
`email`. -/
theorem C9_roundtrip_name_email (db db' : DB) (loads : Str → Option JVal)
    (now pr jd : Str) (J : Nat) (a1kvs piKvs : List (Str × JVal)) (fn em : JVal)
    (a2 : Option JVal) (r1 r2 : Option Str) (cid : Nat)
    (ha1 : jGet (.obj a1kvs) (strL "personal_information") = some (.obj piKvs))
    (hfn : jGet (.obj piKvs) (strL "full_name") = some fn)
    (hem : jGet (.obj piKvs) (strL "email") = some em)
    (hstore : store_candidate_data db now J pr jd (some (.obj a1kvs)) a2 r1 r2 =
      (db', some cid))
    (hround : loads (dumps (.obj piKvs)) = some (.obj piKvs)) :
    ∃ lc ∈ load_candidates_for_job loads db' J,
      lc.row.id = cid ∧ lc.candidate_name = fn ∧ lc.email = em := by
  rcases store_success_shape hstore with
    ⟨hJ, ⟨j, hj, hjid⟩, hjobs, hcid, row, hcands, hrowjob, hrowid, _, _, hpi⟩
  have hpi' : row.personal_information = dumps (.obj piKvs) := by
    rw [hpi]
    simp only [Option.getD_some, ha1]
    rfl
  -- the joined pair the stored row produces
  have hfind : ∃ j', db'.jobs.find? (fun jj => jj.job_id == row.job_id) = some j' := by
    apply Option.isSome_iff_exists.mp
    rw [List.find?_isSome]
    exact ⟨j, hjobs ▸ hj, by simp [hrowjob, hjid]⟩
  rcases hfind with ⟨j', hj'⟩
  have hrowmem : row ∈ db'.candidates := by
    rw [hcands]
    exact List.mem_append_right _ (List.mem_singleton.mpr rfl)
  have hjoined : (row, j'.job_name) ∈ db'.candidates.filterMap (fun c =>
      if c.job_id == J then
        (db'.jobs.find? (fun jj => jj.job_id == c.job_id)).map (fun jj => (c, jj.job_name))
      else none) := by
    apply List.mem_filterMap.mpr
    refine ⟨row, hrowmem, ?_⟩
    rw [if_pos (by simp [hrowjob]), hj']
    rfl
  refine ⟨denormRow loads (row, j'.job_name), ?_, ?_, ?_, ?_⟩
  · unfold load_candidates_for_job
    rw [if_neg hJ]
    exact List.mem_map_of_mem _ ((mem_sortBy _ _ _).mpr hjoined)
  · exact hrowid.trans hcid.symm
  · have htr : strTruthy row.personal_information = true := by
      rw [hpi']; exact strTruthy_dumps _
    have hloads' : loads row.personal_information = some (.obj piKvs) := by
      rw [hpi']; exact hround
    rw [(denormRow_name_email loads row j'.job_name piKvs htr hloads').1]
    simp [jGetD, hfn]
  · have htr : strTruthy row.personal_information = true := by
      rw [hpi']; exact strTruthy_dumps _
    have hloads' : loads row.personal_information = some (.obj piKvs) := by
      rw [hpi']; exact hround
    rw [(denormRow_name_email loads row j'.job_name piKvs htr hloads').2]
    simp [jGetD, hem]

/-- The stored `personal_information` object for the C9 witness. -/
def c9pi : JVal :=
  .obj [(strL "full_name", .str (strL "Al")), (strL "email", .str (strL "al@x"))]

/-- The extraction record for the C9 witness. -/
def c9a1 : JVal := .obj [(strL "personal_information", c9pi)]

/-- One-job database for the C9 witness. -/
def c9db : DB := ⟨[⟨1, strL "job", strL "f.pdf", strL "d", 0⟩], [], 2, 1⟩

/-- The database after the C9 witness's store. -/
def c9db' : DB :=
  (store_candidate_data c9db (strL "ts") 1 (strL "1-2") (strL "jd")
    (some c9a1) (some (.obj [])) none none).1

/-- A `json.loads` oracle decoding exactly the serialization of `c9pi`. -/
def c9loads : Str → Option JVal := fun s => if s = dumps c9pi then some c9pi else none

/-- Witness for C9 at the concrete store-then-load round trip. -/
theorem C9_roundtrip_witness :
    (jGet c9a1 (strL "personal_information") = some c9pi ∧
     jGet c9pi (strL "full_name") = some (.str (strL "Al")) ∧
     jGet c9pi (strL "email") = some (.str (strL "al@x")) ∧
     store_candidate_data c9db (strL "ts") 1 (strL "1-2") (strL "jd")
       (some c9a1) (some (.obj [])) none none = (c9db', some 1) ∧
     c9loads (dumps c9pi) = some c9pi) ∧
    ∃ lc ∈ load_candidates_for_job c9loads c9db' 1,
      lc.row.id = 1 ∧ lc.candidate_name = .str (strL "Al") ∧ lc.email = .str (strL "al@x") :=
  ⟨⟨rfl, rfl, rfl, rfl, rfl⟩,
    C9_roundtrip_name_email c9db c9db' c9loads (strL "ts") (strL "1-2") (strL "jd") 1
      [(strL "personal_information", c9pi)]
      [(strL "full_name", .str (strL "Al")), (strL "email", .str (strL "al@x"))]
      (.str (strL "Al")) (.str (strL "al@x")) (some (.obj [])) none none 1
      rfl rfl rfl rfl rfl⟩

/-! ## C4: the rename/create/copy/drop migration -/

/-- A pre-existing `candidates` table sharing no column with the canonical
schema (its `job_id` foreign key is missing entirely). -/
def c4disjoint : GTable := ⟨[strL "foo"], [[(strL "foo", SqlVal.int 5)]], none⟩

/-- C4 counterexample: migrating a one-row table with no column in common
with the canonical schema succeeds but copies nothing — the migrated table
is empty, so the row is NOT preserved (the code logs "Data not copied" and
then drops the old table). -/
theorem C4_counterexample :
    needsMigration c4disjoint = true ∧ c4disjoint.rows.length = 1 ∧
    init_db_candidates (some c4disjoint) none = .ok ⟨some canonicalTable, none⟩ ∧
    canonicalTable.rows.length = 0 :=
  ⟨rfl, rfl, rfl, rfl⟩

theorem rowVal_copiedRow (newCols common : List Str) (r : List (Str × SqlVal)) (c : Str)
    (hmem : c ∈ newCols) (hcomm : common.contains c = true) :
    rowVal (copiedRow newCols common r) c = rowVal r c := by
  induction newCols with
  | nil => cases hmem
  | cons a rest ih =>
    cases hac : (c == a) with
    | true =>
      rcases eq_of_beq hac with rfl
      simp only [copiedRow, List.map_cons, rowVal, List.lookup, beq_self_eq_true, hcomm,
        if_true, Option.getD_some]
    | false =>
      have hc' : c ∈ rest := by
        rcases List.mem_cons.mp hmem with rfl | h
        · simp at hac
        · exact h
      have hres := ih hc'
      simp only [copiedRow, List.map_cons, rowVal, List.lookup, hac] at hres ⊢
      exact hres

/-- C4 amended: for every pre-existing `candidates` table whose `job_id`
foreign key is missing or lacks `ON DELETE CASCADE`, and which shares at
least one column with the canonical schema, `init_db` migrates it by
rename/create/copy/drop inside a single transaction: the row count is
preserved and every row keeps the values of all columns common to the old
and new schemas; the post-migration table declares the cascade foreign
key; and a failure at any step rolls everything back and re-raises,
leaving the original table visible.  (When no column is shared the code
copies nothing and the migrated table is empty — see the
counterexample.) -/
theorem C4_migration_preserves_common_columns (t : GTable)
    (hmig : needsMigration t = true)
    (hcommon : t.cols.filter (fun c => canonicalCols.contains c) ≠ []) :
    (∃ nt : GTable, init_db_candidates (some t) none = .ok ⟨some nt, none⟩ ∧
      nt.fkJobIdOnDelete = some (strL "CASCADE") ∧
      nt.cols = canonicalCols ∧
      nt.rows.length = t.rows.length ∧
      (∀ i c, c ∈ t.cols.filter (fun c => canonicalCols.contains c) →
        rowVal (nt.rows.getD i []) c = rowVal (t.rows.getD i []) c)) ∧
    (∀ k, k < 4 → init_db_candidates (some t) (some k) = .error ⟨some t, none⟩) := by
  have hcols : canonicalTable.cols = canonicalCols := rfl
  have hce : (t.cols.filter (fun c => canonicalTable.cols.contains c)).isEmpty = false := by
    rw [hcols]
    simpa [List.isEmpty_iff] using hcommon
  constructor
  · refine ⟨⟨canonicalCols,
      t.rows.map (copiedRow canonicalCols (t.cols.filter (fun c => canonicalCols.contains c))),
      some (strL "CASCADE")⟩, ?_, rfl, rfl, by simp, ?_⟩
    · simp only [init_db_candidates, hmig, if_true, runMigration, runStep, migStep, hce,
        Bool.false_eq_true, if_false, reduceCtorEq]
      rfl
    · intro i c hc
      have hcontains : (t.cols.filter (fun c => canonicalCols.contains c)).contains c = true :=
        List.elem_iff.mpr hc
      have hmemnew : c ∈ canonicalCols := by
        have hp : (fun c => canonicalCols.contains c) c = true := List.of_mem_filter hc
        exact List.elem_iff.mp hp
      cases hget : t.rows.get? i with
      | none =>
        rw [List.getD_eq_getD_get?, List.getD_eq_getD_get?, List.get?_map, hget]
        rfl
      | some r =>
        rw [List.getD_eq_getD_get?, List.getD_eq_getD_get?, List.get?_map, hget]
        exact rowVal_copiedRow _ _ r c hmemnew hcontains
  · intro k hk
    interval_cases k
    · simp [init_db_candidates, hmig, runMigration, runStep]
    · simp [init_db_candidates, hmig, runMigration, runStep, migStep]
    · simp [init_db_candidates, hmig, runMigration, runStep, migStep]
    · simp [init_db_candidates, hmig, runMigration, runStep, migStep]
      all_goals split <;> rfl

/-- A pre-existing table sharing three columns with the canonical schema,
whose `job_id` foreign key lacks cascade semantics. -/
def c4shared : GTable :=
  ⟨[strL "id", strL "job_id", strL "skills"],
   [[(strL "id", SqlVal.int 1), (strL "job_id", SqlVal.int 7),
     (strL "skills", SqlVal.text (strL "[]"))]],
   some (strL "NO ACTION")⟩

/-- Witness for the amended C4 at a concrete shared-column migration. -/
theorem C4_migration_witness :
    (needsMigration c4shared = true ∧
     c4shared.cols.filter (fun c => canonicalCols.contains c) ≠ []) ∧
    ((∃ nt : GTable, init_db_candidates (some c4shared) none = .ok ⟨some nt, none⟩ ∧
        nt.fkJobIdOnDelete = some (strL "CASCADE") ∧
        nt.cols = canonicalCols ∧
        nt.rows.length = c4shared.rows.length ∧
        (∀ i c, c ∈ c4shared.cols.filter (fun c => canonicalCols.contains c) →
          rowVal (nt.rows.getD i []) c = rowVal (c4shared.rows.getD i []) c)) ∧
     (∀ k, k < 4 →
        init_db_candidates (some c4shared) (some k) = .error ⟨some c4shared, none⟩)) :=
  ⟨⟨rfl, by decide⟩, C4_migration_preserves_common_columns c4shared rfl (by decide)⟩

end ResumeRanker

